import Mathlib

/-!
Shallow embedding of the life-wasm core (src/lib.rs): a Game of Life
automaton on a square grid whose generation step is computed incrementally,
column by column, under a wall-clock time budget.

Machine integers are modelled as `Int` (the source uses `i16` coordinates
and an `i8` neighbour counter); arithmetic that can leave the `i16` range
is wrapped explicitly with `wrap16`, matching release-build two's-complement
semantics.  The wall clock is modelled by an oracle `expired : Nat → Bool`
telling, for each column index, whether `performance.now() - start_time`
exceeded the 13 ms threshold at the check that follows the push of that
column; every real-time execution of `calc_tick` corresponds to some oracle.
-/

/-- Two's-complement wrap of an integer into the `i16` range. -/
def wrap16 (n : Int) : Int := (n + 32768) % 65536 - 32768

/-- Rust's inclusive range `lo..=hi` as a list, empty when `lo > hi`. -/
def rangeIncl (lo hi : Int) : List Int :=
  if lo ≤ hi then (List.range (hi - lo + 1).toNat).map (fun (k : Nat) => lo + (k : Int))
  else []

/-- `struct Grid { cell: i16, size: i16 }`. -/
structure Grid where
  cell : Int
  size : Int
  deriving DecidableEq, Repr

/-- `struct Game { grid, state, interim_state }`; `state` is the current
generation indexed `[column][row]`, `interim_state` the partially built next
generation. -/
structure Game where
  grid : Grid
  state : List (List Bool)
  interim_state : List (List Bool)
  deriving DecidableEq, Repr

/-- `Game::get_nebour_count`: loops `ni` over `(i-1)..=(i+1)` and `nj` over
`(j-1)..=(j+1)`, skipping `ni`/`nj` outside `[0, size)` and the cell itself,
and counts `state[nj as usize][ni as usize]`.  The `i16` additions at the
range endpoints wrap; the `i8` counter never exceeds 8, so it is a `Nat`. -/
def get_nebour_count (size : Int) (state : List (List Bool)) (i j : Int) : Nat :=
  (rangeIncl (wrap16 (i - 1)) (wrap16 (i + 1))).foldl (fun count ni =>
    (rangeIncl (wrap16 (j - 1)) (wrap16 (j + 1))).foldl (fun count nj =>
      if ni < 0 ∨ size ≤ ni then count
      else if nj < 0 ∨ size ≤ nj then count
      else if ni = i ∧ nj = j then count
      else if (state.getD nj.toNat []).getD ni.toNat false then count + 1
      else count) count) 0

/-- `Game::get_nebour_count` with every matrix access checked: `none` models
the panic of Rust indexing out of bounds, `some` the computed count. -/
def get_nebour_count_checked (size : Int) (state : List (List Bool)) (i j : Int) :
    Option Nat :=
  (rangeIncl (wrap16 (i - 1)) (wrap16 (i + 1))).foldl (fun acc ni =>
    (rangeIncl (wrap16 (j - 1)) (wrap16 (j + 1))).foldl (fun acc nj =>
      if ni < 0 ∨ size ≤ ni then acc
      else if nj < 0 ∨ size ≤ nj then acc
      else if ni = i ∧ nj = j then acc
      else match acc, state[nj.toNat]?.bind (fun col => col[ni.toNat]?) with
        | some count, some b => some (if b then count + 1 else count)
        | _, _ => none) acc) (some 0)

/-- The per-cell branch of `Game::half_tick`: an alive cell with fewer than 2
or more than 3 neighbours dies, otherwise keeps its (alive) value; a dead
cell with exactly 3 neighbours is born, otherwise keeps its (dead) value. -/
def half_tick_cell (alive : Bool) (nebour_count : Nat) : Bool :=
  if alive then
    if nebour_count < 2 then false
    else if 3 < nebour_count then false
    else alive
  else if nebour_count = 3 then true
  else alive

/-- `Game::half_tick`: builds the next state of one column, row by row,
reading neighbour counts from `state`; `row_num as i16` and `col_num as i16`
are wrapping casts. -/
def half_tick (size : Int) (state : List (List Bool)) (col : List Bool)
    (col_num : Nat) : List Bool :=
  (List.range col.length).map (fun row_num =>
    half_tick_cell (col.getD row_num false)
      (get_nebour_count size state (wrap16 (Int.ofNat row_num))
        (wrap16 (Int.ofNat col_num))))

/-- The column `calc_tick` appends for index `c`: `half_tick` of
`self.state[c]`. -/
def next_column (size : Int) (state : List (List Bool)) (c : Nat) : List Bool :=
  half_tick size state (state.getD c []) c

/-- The loop of `Game::calc_tick` over `interim_state.len()..state.len()`,
with `n` columns left: each iteration pushes `half_tick` of the next column
and then breaks with `done = false` when the time check fires for it. -/
def calc_tick_loop (size : Int) (state : List (List Bool)) (expired : Nat → Bool) :
    Nat → List (List Bool) → List (List Bool) × Bool
  | 0, interim => (interim, true)
  | n + 1, interim =>
    let interim2 := interim ++ [next_column size state interim.length]
    if expired interim.length then (interim2, false)
    else calc_tick_loop size state expired n interim2

/-- `Game::calc_tick`: resumes the column loop at `interim_state.len()` and
returns the updated game together with `done`. -/
def calc_tick (expired : Nat → Bool) (g : Game) : Game × Bool :=
  let r := calc_tick_loop g.grid.size g.state expired
    (g.state.length - g.interim_state.length) g.interim_state
  ({ g with interim_state := r.1 }, r.2)

/-- `Game::tick`: runs `calc_tick`; when it reports done, promotes
`interim_state` to `state` and clears `interim_state`.  The function itself
always returns `true` to the animation loop (rendering is out of scope). -/
def tick (expired : Nat → Bool) (g : Game) : Game × Bool :=
  let r := calc_tick expired g
  (if r.2 then { grid := r.1.grid, state := r.1.interim_state, interim_state := [] }
   else r.1, true)

/-- Drives `calc_tick` with one time oracle per call: `some g'` when the step
completes exactly on the last call (promoting as `tick` does), every earlier
call reporting partial progress. -/
def run_step : List (Nat → Bool) → Game → Option Game
  | [], _ => none
  | o :: os, g =>
    let r := calc_tick o g
    if r.2 then
      match os with
      | [] => some { grid := r.1.grid, state := r.1.interim_state, interim_state := [] }
      | _ :: _ => none
    else run_step os r.1

/-- The fully computed next generation: every column of `state` passed
through `half_tick` against the unchanged `state`. -/
def full_next (g : Game) : List (List Bool) :=
  (List.range g.state.length).map (next_column g.grid.size g.state)

/-- The first `L` columns of the next generation, all computed against the
same `state`. -/
def built (size : Int) (state : List (List Bool)) (L : Nat) : List (List Bool) :=
  (List.range L).map (next_column size state)

/-- Modelled from the spec: the canonical Life table, `apply_rule` of §4.2 —
alive survives iff the count is exactly 2 or 3, dead births iff exactly 3. -/
def spec_rule (alive : Bool) (nebour_count : Nat) : Bool :=
  if alive then decide (nebour_count = 2 ∨ nebour_count = 3)
  else decide (nebour_count = 3)

/-- The 8 positions adjacent to `(i, j)` (row, column), the cell itself
excluded by construction. -/
def neighborhood (i j : Int) : List (Int × Int) :=
  [(i - 1, j - 1), (i - 1, j), (i - 1, j + 1),
   (i, j - 1), (i, j + 1),
   (i + 1, j - 1), (i + 1, j), (i + 1, j + 1)]

/-- A (row, column) position lies inside `[0, size)` in both axes. -/
def in_bounds (size : Int) (p : Int × Int) : Bool :=
  decide (0 ≤ p.1) && decide (p.1 < size) && decide (0 ≤ p.2) && decide (p.2 < size)

/-- The cell at row `p.1`, column `p.2` of the matrix is alive. -/
def alive_at (state : List (List Bool)) (p : Int × Int) : Bool :=
  (state.getD p.2.toNat []).getD p.1.toNat false

/-- The count the spec describes: how many of the adjacent positions that lie
inside the grid are alive in `state`. -/
def spec_nebour_count (size : Int) (state : List (List Bool)) (i j : Int) : Nat :=
  ((neighborhood i j).filter (fun p => in_bounds size p && alive_at state p)).length

/-- The buffer-shape invariant: the in-progress buffer is no longer than the
current generation, and each of its columns has the length of the matching
current column. -/
def shape_inv (g : Game) : Prop :=
  g.interim_state.length ≤ g.state.length ∧
  ∀ k, k < g.interim_state.length →
    (g.interim_state.getD k []).length = (g.state.getD k []).length

/-- The `Game` value built in `start()`: `Grid { cell: 4, size: 150 }` with
empty buffers. -/
def start_game : Game :=
  { grid := { cell := 4, size := 150 }, state := [], interim_state := [] }

/-- The 3×3 game of the spec's concrete scenario, `current` indexed
`[column][row]`. -/
def game_three : Game :=
  { grid := { cell := 4, size := 3 }
    state := [[true, true, false], [true, false, false], [false, false, false]]
    interim_state := [] }

/-- A 1×1 game with its single cell alive. -/
def game_one : Game :=
  { grid := { cell := 4, size := 1 }, state := [[true]], interim_state := [] }

/-- A 2×2 game holding a block (every cell alive). -/
def game_two : Game :=
  { grid := { cell := 4, size := 2 }
    state := [[true, true], [true, true]]
    interim_state := [] }

/-! ### The column loop of `calc_tick` -/

theorem calc_tick_loop_spec (size : Int) (state : List (List Bool))
    (expired : Nat → Bool) :
    ∀ (n : Nat) (interim : List (List Bool)),
      ∃ m : Nat, m ≤ n ∧
        (calc_tick_loop size state expired n interim).1
          = interim ++ (List.range m).map
              (fun k => next_column size state (interim.length + k)) ∧
        ((calc_tick_loop size state expired n interim).2 = true ↔
          ∀ k, k < n → expired (interim.length + k) = false) ∧
        ((calc_tick_loop size state expired n interim).2 = true → m = n) ∧
        (0 < n → 0 < m) := by
  intro n
  induction n with
  | zero =>
    intro interim
    refine ⟨0, Nat.le_refl 0, by simp [calc_tick_loop], ?_, fun _ => rfl, by omega⟩
    simp [calc_tick_loop]
  | succ n ih =>
    intro interim
    by_cases he : expired interim.length = true
    · have hred : calc_tick_loop size state expired (n + 1) interim
          = (interim ++ [next_column size state interim.length], false) := by
        simp [calc_tick_loop, he]
      refine ⟨1, by omega, ?_, ?_, ?_, by omega⟩
      · rw [hred, show (List.range 1) = [0] from rfl, List.map_cons, List.map_nil,
          Nat.add_zero]
      · rw [hred]
        constructor
        · intro h; exact absurd h (by simp)
        · intro hall
          have h0 := hall 0 (by omega)
          rw [Nat.add_zero, he] at h0
          exact absurd h0 (by simp)
      · rw [hred]
        intro h
        exact absurd h (by simp)
    · obtain ⟨m, hmn, heq, hiff, hdone, hpos⟩ :=
        ih (interim ++ [next_column size state interim.length])
      have hlen : (interim ++ [next_column size state interim.length]).length
          = interim.length + 1 := by simp
      have hred : calc_tick_loop size state expired (n + 1) interim
          = calc_tick_loop size state expired n
              (interim ++ [next_column size state interim.length]) := by
        simp [calc_tick_loop, he]
      refine ⟨m + 1, by omega, ?_, ?_, ?_, by omega⟩
      · rw [hred, heq, hlen, List.append_assoc]
        congr 1
        rw [List.range_succ_eq_map, List.map_cons, List.map_map, List.singleton_append]
        congr 1
        apply List.map_congr_left
        intro k _
        show next_column size state (interim.length + 1 + k)
          = next_column size state (interim.length + Nat.succ k)
        congr 1
        omega
      · rw [hred, hiff, hlen]
        constructor
        · intro hall k hk
          match k with
          | 0 =>
            rw [Nat.add_zero]
            exact (Bool.not_eq_true _).mp he
          | k' + 1 =>
            have := hall k' (by omega)
            rw [show interim.length + 1 + k' = interim.length + (k' + 1) from by omega]
              at this
            exact this
        · intro hall k hk
          have := hall (k + 1) (by omega)
          rw [show interim.length + (k + 1) = interim.length + 1 + k from by omega]
            at this
          exact this
      · rw [hred]
        intro h
        have := hdone h
        omega

theorem calc_tick_spec (expired : Nat → Bool) (g : Game) :
    ∃ m : Nat, m ≤ g.state.length - g.interim_state.length ∧
      (calc_tick expired g).1.grid = g.grid ∧
      (calc_tick expired g).1.state = g.state ∧
      (calc_tick expired g).1.interim_state
        = g.interim_state ++ (List.range m).map
            (fun k => next_column g.grid.size g.state (g.interim_state.length + k)) ∧
      ((calc_tick expired g).2 = true ↔
        ∀ k, k < g.state.length - g.interim_state.length →
          expired (g.interim_state.length + k) = false) ∧
      ((calc_tick expired g).2 = true →
        m = g.state.length - g.interim_state.length) ∧
      (0 < g.state.length - g.interim_state.length → 0 < m) := by
  obtain ⟨m, hmn, heq, hiff, hdone, hpos⟩ :=
    calc_tick_loop_spec g.grid.size g.state expired
      (g.state.length - g.interim_state.length) g.interim_state
  exact ⟨m, hmn, rfl, rfl, heq, hiff, hdone, hpos⟩

theorem built_append (size : Int) (state : List (List Bool)) (L m : Nat) :
    built size state L ++ (List.range m).map
        (fun k => next_column size state (L + k)) = built size state (L + m) := by
  unfold built
  rw [List.range_add, List.map_append, List.map_map]
  rfl

theorem built_zero (size : Int) (state : List (List Bool)) :
    built size state 0 = [] := rfl

theorem built_length (size : Int) (state : List (List Bool)) (L : Nat) :
    (built size state L).length = L := by
  unfold built; simp

theorem full_next_eq_built (g : Game) :
    full_next g = built g.grid.size g.state g.state.length := rfl

theorem getD_map_range {α : Type} (d : α) (f : Nat → α) {m k : Nat} (h : k < m) :
    (((List.range m).map f).getD k d) = f k := by
  rw [List.getD_eq_getElem?_getD, List.getElem?_map, List.getElem?_range h]
  rfl

theorem built_getD (size : Int) (state : List (List Bool)) {L k : Nat} (h : k < L) :
    (built size state L).getD k [] = next_column size state k := by
  unfold built
  exact getD_map_range [] (next_column size state) h

theorem half_tick_length (size : Int) (state : List (List Bool)) (col : List Bool)
    (col_num : Nat) : (half_tick size state col col_num).length = col.length := by
  simp [half_tick]

/-! ### Completing a step across any number of calls -/

theorem run_step_complete (os : List (Nat → Bool)) :
    ∀ (g g' : Game) (L : Nat),
      g.interim_state = built g.grid.size g.state L →
      L ≤ g.state.length →
      run_step os g = some g' →
      g' = { grid := g.grid, state := built g.grid.size g.state g.state.length,
             interim_state := [] } := by
  induction os with
  | nil =>
    intro g g' L _ _ h
    exact absurd h (by simp [run_step])
  | cons o os ih =>
    intro g g' L hb hle hrun
    obtain ⟨m, hmn, hgrid, hstate, heq, hiff, hdone, hpos⟩ := calc_tick_spec o g
    have hlen2 : g.interim_state.length = L := by rw [hb, built_length]
    rw [hlen2] at heq hmn hdone
    rw [hb, built_append] at heq
    cases hd : (calc_tick o g).2
    · have hrun2 : run_step os (calc_tick o g).1 = some g' := by
        simpa [run_step, hd] using hrun
      have hb2 : (calc_tick o g).1.interim_state
          = built (calc_tick o g).1.grid.size (calc_tick o g).1.state (L + m) := by
        rw [hgrid, hstate]; exact heq
      have hle2 : L + m ≤ (calc_tick o g).1.state.length := by
        rw [hstate]; omega
      have := ih (calc_tick o g).1 g' (L + m) hb2 hle2 hrun2
      rw [hgrid, hstate] at this
      exact this
    · have hm := hdone hd
      cases os with
      | nil =>
        have hform : run_step [o] g
            = some (Game.mk (calc_tick o g).1.grid (calc_tick o g).1.interim_state []) := by
          simp [run_step, hd]
        rw [hform, Option.some_inj] at hrun
        rw [← hrun, hgrid, heq]
        have hLm : L + m = g.state.length := by omega
        rw [hLm]
      | cons o2 os2 =>
        exact absurd hrun (by simp [run_step, hd])

/-! ### Claim theorems -/

/-- C1.  Step consistency: however the column loop is split into sub-calls
that resume at the cursor, the promoted generation equals the one a single
uninterrupted call produces. -/
theorem c1_split_independent (g : Game) (os : List (Nat → Bool)) (g' : Game)
    (hidle : g.interim_state = [])
    (hrun : run_step os g = some g') :
    g'.state = full_next g ∧ g'.interim_state = [] ∧ g'.grid = g.grid ∧
      run_step [fun _ => false] g
        = some { grid := g.grid, state := full_next g, interim_state := [] } := by
  have h0 : g.interim_state = built g.grid.size g.state 0 := by rw [hidle]; rfl
  have hmain := run_step_complete os g g' 0 h0 (by omega) hrun
  have hsingle : run_step [fun _ => false] g
      = some { grid := g.grid, state := built g.grid.size g.state g.state.length,
               interim_state := [] } := by
    obtain ⟨m, hmn, hgrid, hstate, heq, hiff, hdone, hpos⟩ :=
      calc_tick_spec (fun _ => false) g
    have hd : (calc_tick (fun _ => false) g).2 = true := hiff.mpr (fun _ _ => rfl)
    have hm := hdone hd
    have hlen2 : g.interim_state.length = 0 := by rw [hidle]; rfl
    rw [hlen2] at heq hm
    rw [hidle] at heq
    rw [show (built g.grid.size g.state 0) = ([] : List (List Bool)) from rfl] at h0
    have heq2 : (calc_tick (fun _ => false) g).1.interim_state
        = built g.grid.size g.state g.state.length := by
      rw [heq, hm]
      have := built_append g.grid.size g.state 0 g.state.length
      rw [built_zero, List.nil_append, Nat.zero_add] at this
      simpa using this
    simp only [run_step, hd, if_true]
    rw [hgrid, heq2]
  refine ⟨?_, ?_, ?_, hsingle⟩
  · rw [hmain, full_next_eq_built]
  · rw [hmain]
  · rw [hmain]

/-- C2.  Rule table exactness: for every cell value and neighbour count in
range, the per-cell transition of `half_tick` matches the canonical Life
table, and `half_tick` applies exactly that transition to every row. -/
theorem c2_rule_table (alive : Bool) (c : Nat) (hc : c ≤ 8) :
    half_tick_cell alive c = spec_rule alive c ∧
    (∀ (size : Int) (state : List (List Bool)) (col : List Bool) (cn r : Nat),
      r < col.length →
      (half_tick size state col cn).getD r false
        = half_tick_cell (col.getD r false)
            (get_nebour_count size state (wrap16 (Int.ofNat r))
              (wrap16 (Int.ofNat cn)))) := by
  constructor
  · interval_cases c <;> cases alive <;> decide
  · intro size state col cn r hr
    unfold half_tick
    rw [getD_map_range false _ hr]

theorem c2_rule_table_witness :
    3 ≤ 8 ∧
    (half_tick_cell false 3 = spec_rule false 3 ∧
      (∀ (size : Int) (state : List (List Bool)) (col : List Bool) (cn r : Nat),
        r < col.length →
        (half_tick size state col cn).getD r false
          = half_tick_cell (col.getD r false)
              (get_nebour_count size state (wrap16 (Int.ofNat r))
                (wrap16 (Int.ofNat cn))))) :=
  ⟨by omega, c2_rule_table false 3 (by omega)⟩

theorem c1_split_independent_witness :
    game_two.interim_state = [] ∧
    run_step [fun _ => true, fun _ => false] game_two = some game_two ∧
    ((game_two : Game).state = full_next game_two ∧
      (game_two : Game).interim_state = [] ∧ (game_two : Game).grid = game_two.grid ∧
      run_step [fun _ => false] game_two
        = some { grid := game_two.grid, state := full_next game_two,
                 interim_state := [] }) :=
  ⟨rfl, rfl, c1_split_independent game_two [fun _ => true, fun _ => false]
    game_two rfl rfl⟩

/-- C3 counterexample: on a 1×1 grid whose single call computes the one
column and then sees the time check fire, all `side` columns are computed
(the cursor has reached `side`), yet `calc_tick` returns `false` and `tick`
does not promote on this call. -/
theorem c3_counterexample :
    (calc_tick (fun _ => true) game_one).2 = false ∧
    (calc_tick (fun _ => true) game_one).1.interim_state.length
      = game_one.state.length ∧
    game_one.grid.size = 1 ∧ game_one.state.length = 1 ∧
    (tick (fun _ => true) game_one).1.state = game_one.state ∧
    (tick (fun _ => true) game_one).1.interim_state = [[false]] :=
  ⟨rfl, rfl, rfl, rfl, rfl, rfl⟩

/-- C3 as amended: `calc_tick` returns `true` iff the 13 ms check fires on
none of the columns it processes — so a call can return `false` with every
column of the generation already computed, when the check fires on the final
column; the current generation is untouched by `calc_tick`, and `tick`
promotes the in-progress buffer and resets it exactly on the calls whose
`calc_tick` returns `true`. -/
theorem c3_return_contract (o : Nat → Bool) (g : Game) :
    ((calc_tick o g).2 = true ↔
      ∀ k, g.interim_state.length ≤ k → k < g.state.length → o k = false) ∧
    (calc_tick o g).1.state = g.state ∧
    (calc_tick o g).1.grid = g.grid ∧
    (tick o g).1 = (if (calc_tick o g).2
      then Game.mk g.grid (calc_tick o g).1.interim_state []
      else (calc_tick o g).1) := by
  obtain ⟨m, hmn, hgrid, hstate, heq, hiff, hdone, hpos⟩ := calc_tick_spec o g
  refine ⟨?_, hstate, hgrid, ?_⟩
  · rw [hiff]
    constructor
    · intro hall k h1 h2
      have h := hall (k - g.interim_state.length) (by omega)
      rw [show g.interim_state.length + (k - g.interim_state.length) = k
        from by omega] at h
      exact h
    · intro hall k hk
      exact hall (g.interim_state.length + k) (by omega) (by omega)
  · cases hd : (calc_tick o g).2
    · simp [tick, hd]
    · simp [tick, hd, hgrid]

/-- C5.  Frame invariant: whenever a call leaves the step incomplete, the
current generation and the grid are unchanged, and the in-progress buffer
still consists exactly of columns computed by `half_tick` against that same
unchanged current generation. -/
theorem c5_frame (o : Nat → Bool) (g : Game) (L : Nat)
    (hb : g.interim_state = built g.grid.size g.state L)
    (hd : (calc_tick o g).2 = false) :
    (tick o g).1.state = g.state ∧ (tick o g).1.grid = g.grid ∧
      ∃ m : Nat, (tick o g).1.interim_state = built g.grid.size g.state (L + m) := by
  obtain ⟨m, hmn, hgrid, hstate, heq, hiff, hdone, hpos⟩ := calc_tick_spec o g
  have htick : (tick o g).1 = (calc_tick o g).1 := by simp [tick, hd]
  have hlen2 : g.interim_state.length = L := by rw [hb, built_length]
  rw [hlen2] at heq
  rw [hb, built_append] at heq
  exact ⟨by rw [htick, hstate], by rw [htick, hgrid], m, by rw [htick, heq]⟩

theorem c5_frame_witness :
    game_two.interim_state = built game_two.grid.size game_two.state 0 ∧
    (calc_tick (fun _ => true) game_two).2 = false ∧
    ((tick (fun _ => true) game_two).1.state = game_two.state ∧
      (tick (fun _ => true) game_two).1.grid = game_two.grid ∧
      ∃ m : Nat, (tick (fun _ => true) game_two).1.interim_state
        = built game_two.grid.size game_two.state (0 + m)) :=
  ⟨rfl, rfl, c5_frame (fun _ => true) game_two 0 rfl rfl⟩

/-- C6.  Per-call progress: a call that begins with uncomputed columns
remaining always appends at least one column — the cursor strictly
increases, whatever the time oracle says — and never runs past the grid. -/
theorem c6_progress (o : Nat → Bool) (g : Game)
    (h : g.interim_state.length < g.state.length) :
    g.interim_state.length < (calc_tick o g).1.interim_state.length ∧
    (calc_tick o g).1.interim_state.length ≤ g.state.length := by
  obtain ⟨m, hmn, hgrid, hstate, heq, hiff, hdone, hpos⟩ := calc_tick_spec o g
  rw [heq, List.length_append, List.length_map, List.length_range]
  have := hpos (by omega)
  omega

theorem c6_progress_witness :
    game_one.interim_state.length < game_one.state.length ∧
    (game_one.interim_state.length
        < (calc_tick (fun _ => true) game_one).1.interim_state.length ∧
      (calc_tick (fun _ => true) game_one).1.interim_state.length
        ≤ game_one.state.length) :=
  ⟨by decide, c6_progress (fun _ => true) game_one (by decide)⟩

/-- C7.  Concrete 3×3 scenario: one complete step under a never-expiring
budget turns `[[T,T,F],[T,F,F],[F,F,F]]` into `[[T,T,F],[T,T,F],[F,F,F]]`. -/
theorem c7_concrete_scenario :
    (calc_tick (fun _ => false) game_three).2 = true ∧
    (tick (fun _ => false) game_three).1.state
      = [[true, true, false], [true, true, false], [false, false, false]] ∧
    (tick (fun _ => false) game_three).1.interim_state = [] :=
  ⟨rfl, rfl, rfl⟩

/-- C8 counterexample: `Grid` is a plain struct with no validating
constructor — a `Grid` whose `cell` and `size` are non-positive is a
perfectly constructible value, so construction is not rejected. -/
theorem c8_counterexample :
    (Grid.mk (-1) (-2)).cell = -1 ∧ (Grid.mk (-1) (-2)).size = -2 :=
  ⟨rfl, rfl⟩

/-- C8 as amended: the code never validates `Grid` construction — a value
with non-positive fields is constructible — and the program's only
construction site, in `start()`, uses the positive constants
`cell = 4, size = 150`. -/
theorem c8_construction_unchecked :
    start_game.grid.cell = 4 ∧ start_game.grid.size = 150 ∧
    0 < start_game.grid.cell ∧ 0 < start_game.grid.size ∧
    (Grid.mk 0 0).cell = 0 ∧ (Grid.mk 0 0).size = 0 := by
  refine ⟨rfl, rfl, by decide, by decide, rfl, rfl⟩

/-- C10.  Buffer shape: `half_tick` yields one cell per input row; a call
keeps `interim_state` no longer than `state` with every appended column as
long as the matching current column; and a promoted generation has the
column count and per-column lengths of its predecessor. -/
theorem c10_shape (o : Nat → Bool) (g : Game) (h : shape_inv g) :
    (∀ (size : Int) (state : List (List Bool)) (col : List Bool) (n : Nat),
        (half_tick size state col n).length = col.length) ∧
    shape_inv (calc_tick o g).1 ∧ shape_inv (tick o g).1 ∧
    ((calc_tick o g).2 = true →
      (tick o g).1.state.length = g.state.length ∧
      ∀ k, k < g.state.length →
        ((tick o g).1.state.getD k []).length = (g.state.getD k []).length) := by
  obtain ⟨m, hmn, hgrid, hstate, heq, hiff, hdone, hpos⟩ := calc_tick_spec o g
  obtain ⟨hle, hcols⟩ := h
  have hlen' : (calc_tick o g).1.interim_state.length
      = g.interim_state.length + m := by
    rw [heq, List.length_append, List.length_map, List.length_range]
  have hcols' : ∀ k, k < g.interim_state.length + m →
      ((calc_tick o g).1.interim_state.getD k []).length
        = (g.state.getD k []).length := by
    intro k hk
    rw [heq]
    by_cases hkL : k < g.interim_state.length
    · rw [List.getD_append _ _ _ _ hkL]
      exact hcols k hkL
    · rw [List.getD_append_right _ _ _ _ (by omega)]
      rw [getD_map_range [] _ (show k - g.interim_state.length < m from by omega)]
      rw [show g.interim_state.length + (k - g.interim_state.length) = k
        from by omega]
      unfold next_column
      rw [half_tick_length]
  have hsi_calc : shape_inv (calc_tick o g).1 := by
    refine ⟨?_, ?_⟩
    · rw [hstate, hlen']; omega
    · intro k hk
      rw [hlen'] at hk
      rw [hstate]
      exact hcols' k hk
  refine ⟨fun size state col n => half_tick_length size state col n, hsi_calc, ?_, ?_⟩
  · cases hd : (calc_tick o g).2
    · have htick : (tick o g).1 = (calc_tick o g).1 := by simp [tick, hd]
      rw [htick]; exact hsi_calc
    · have htick : (tick o g).1
          = Game.mk (calc_tick o g).1.grid (calc_tick o g).1.interim_state [] := by
        simp [tick, hd]
      rw [htick]
      exact ⟨by simp, fun k hk => absurd hk (by simp)⟩
  · intro hd
    have hm := hdone hd
    have htick : (tick o g).1
        = Game.mk (calc_tick o g).1.grid (calc_tick o g).1.interim_state [] := by
      simp [tick, hd]
    constructor
    · rw [htick]
      show (calc_tick o g).1.interim_state.length = g.state.length
      rw [hlen']; omega
    · intro k hk
      rw [htick]
      show ((calc_tick o g).1.interim_state.getD k []).length
        = (g.state.getD k []).length
      exact hcols' k (by omega)

theorem c10_shape_witness :
    shape_inv game_two ∧
    ((∀ (size : Int) (state : List (List Bool)) (col : List Bool) (n : Nat),
        (half_tick size state col n).length = col.length) ∧
      shape_inv (calc_tick (fun _ => true) game_two).1 ∧
      shape_inv (tick (fun _ => true) game_two).1 ∧
      ((calc_tick (fun _ => true) game_two).2 = true →
        (tick (fun _ => true) game_two).1.state.length = game_two.state.length ∧
        ∀ k, k < game_two.state.length →
          ((tick (fun _ => true) game_two).1.state.getD k []).length
            = (game_two.state.getD k []).length)) :=
  have hsi : shape_inv game_two :=
    ⟨by decide, fun k hk => absurd hk (Nat.not_lt_zero k)⟩
  ⟨hsi, c10_shape (fun _ => true) game_two hsi⟩

/-! ### Neighbour counting -/

theorem wrap16_eq {x : Int} (h1 : -32768 ≤ x) (h2 : x ≤ 32767) : wrap16 x = x := by
  unfold wrap16; omega

theorem rangeIncl_three (a : Int) : rangeIncl (a - 1) (a + 1) = [a - 1, a, a + 1] := by
  unfold rangeIncl
  rw [if_pos (by omega), show (a + 1 - (a - 1) + 1).toNat = 3 from by omega,
    show List.range 3 = [0, 1, 2] from rfl]
  simp only [List.map_cons, List.map_nil, List.cons.injEq, and_true]
  refine ⟨by omega, by omega, by omega⟩

/-- The contribution of one candidate position `(ni, nj)` to the count of
`get_nebour_count size state i j`. -/
def nb_contrib (size : Int) (state : List (List Bool)) (i j ni nj : Int) : Nat :=
  if ni < 0 ∨ size ≤ ni then 0
  else if nj < 0 ∨ size ≤ nj then 0
  else if ni = i ∧ nj = j then 0
  else if (state.getD nj.toNat []).getD ni.toNat false then 1
  else 0

theorem nb_step_eq (size : Int) (state : List (List Bool)) (i j ni nj : Int)
    (count : Nat) :
    (if ni < 0 ∨ size ≤ ni then count
      else if nj < 0 ∨ size ≤ nj then count
      else if ni = i ∧ nj = j then count
      else if (state.getD nj.toNat []).getD ni.toNat false then count + 1
      else count) = count + nb_contrib size state i j ni nj := by
  unfold nb_contrib
  split_ifs <;> omega

theorem nb_inner_eq (size : Int) (state : List (List Bool)) (i j ni : Int) :
    ∀ (l : List Int) (count : Nat),
      l.foldl (fun count nj =>
        if ni < 0 ∨ size ≤ ni then count
        else if nj < 0 ∨ size ≤ nj then count
        else if ni = i ∧ nj = j then count
        else if (state.getD nj.toNat []).getD ni.toNat false then count + 1
        else count) count
      = count + (l.map (fun nj => nb_contrib size state i j ni nj)).sum := by
  intro l
  induction l with
  | nil => intro count; simp
  | cons x xs ih =>
    intro count
    rw [List.foldl_cons, nb_step_eq, ih, List.map_cons, List.sum_cons]
    omega

theorem get_nebour_count_eq_sum (size : Int) (state : List (List Bool)) (i j : Int)
    (h1 : -32768 ≤ i - 1) (h2 : i + 1 ≤ 32767)
    (h3 : -32768 ≤ j - 1) (h4 : j + 1 ≤ 32767) :
    get_nebour_count size state i j
      = ([i - 1, i, i + 1].map (fun ni =>
          ([j - 1, j, j + 1].map (fun nj =>
            nb_contrib size state i j ni nj)).sum)).sum := by
  unfold get_nebour_count
  rw [wrap16_eq (by omega) h2, wrap16_eq h1 (by omega),
    wrap16_eq (by omega) h4, wrap16_eq h3 (by omega)]
  rw [rangeIncl_three i]
  rw [List.foldl_cons, List.foldl_cons, List.foldl_cons, List.foldl_nil]
  rw [nb_inner_eq size state i j (i - 1), nb_inner_eq size state i j i,
    nb_inner_eq size state i j (i + 1)]
  rw [rangeIncl_three j]
  simp only [List.map_cons, List.map_nil, List.sum_cons, List.sum_nil]
  omega

theorem nb_contrib_le_one (size : Int) (state : List (List Bool)) (i j ni nj : Int) :
    nb_contrib size state i j ni nj ≤ 1 := by
  unfold nb_contrib
  split_ifs <;> omega

theorem nb_contrib_center (size : Int) (state : List (List Bool)) (i j : Int) :
    nb_contrib size state i j i j = 0 := by
  simp [nb_contrib]

theorem nb_contrib_out_row (size : Int) (state : List (List Bool)) (i j ni nj : Int)
    (h : ni < 0 ∨ size ≤ ni) : nb_contrib size state i j ni nj = 0 := by
  unfold nb_contrib
  rw [if_pos h]

theorem nb_contrib_out_col (size : Int) (state : List (List Bool)) (i j ni nj : Int)
    (h : nj < 0 ∨ size ≤ nj) : nb_contrib size state i j ni nj = 0 := by
  unfold nb_contrib
  split_ifs <;> rfl

theorem nb_contrib_eq_spec (size : Int) (state : List (List Bool)) (i j ni nj : Int)
    (hne : ¬(ni = i ∧ nj = j)) :
    nb_contrib size state i j ni nj
      = (if (in_bounds size (ni, nj) && alive_at state (ni, nj)) = true
          then 1 else 0) := by
  rw [not_and_or] at hne
  unfold nb_contrib in_bounds alive_at
  cases hb : (state.getD nj.toNat []).getD ni.toNat false
  · simp only [hb, Bool.and_false, Bool.and_true, Bool.and_eq_true,
      decide_eq_true_eq, Bool.false_eq_true, if_false]
    split_ifs <;> rfl
  · simp only [hb, Bool.and_false, Bool.and_true, Bool.and_eq_true,
      decide_eq_true_eq, Bool.false_eq_true, if_false]
    split_ifs <;> omega

theorem get_nebour_count_eq_spec (size : Int) (state : List (List Bool)) (i j : Int)
    (h1 : -32768 ≤ i - 1) (h2 : i + 1 ≤ 32767)
    (h3 : -32768 ≤ j - 1) (h4 : j + 1 ≤ 32767) :
    get_nebour_count size state i j = spec_nebour_count size state i j := by
  rw [get_nebour_count_eq_sum size state i j h1 h2 h3 h4]
  unfold spec_nebour_count neighborhood
  rw [← List.countP_eq_length_filter]
  simp only [List.countP_cons, List.countP_nil]
  simp only [List.map_cons, List.map_nil, List.sum_cons, List.sum_nil]
  rw [nb_contrib_center]
  rw [nb_contrib_eq_spec size state i j (i - 1) (j - 1) (by omega),
    nb_contrib_eq_spec size state i j (i - 1) j (by omega),
    nb_contrib_eq_spec size state i j (i - 1) (j + 1) (by omega),
    nb_contrib_eq_spec size state i j i (j - 1) (by omega),
    nb_contrib_eq_spec size state i j i (j + 1) (by omega),
    nb_contrib_eq_spec size state i j (i + 1) (j - 1) (by omega),
    nb_contrib_eq_spec size state i j (i + 1) j (by omega),
    nb_contrib_eq_spec size state i j (i + 1) (j + 1) (by omega)]
  omega

theorem get_nebour_count_le_eight (size : Int) (state : List (List Bool)) (i j : Int)
    (h1 : -32768 ≤ i - 1) (h2 : i + 1 ≤ 32767)
    (h3 : -32768 ≤ j - 1) (h4 : j + 1 ≤ 32767) :
    get_nebour_count size state i j ≤ 8 := by
  rw [get_nebour_count_eq_sum size state i j h1 h2 h3 h4]
  simp only [List.map_cons, List.map_nil, List.sum_cons, List.sum_nil]
  rw [nb_contrib_center]
  have b1 := nb_contrib_le_one size state i j (i - 1) (j - 1)
  have b2 := nb_contrib_le_one size state i j (i - 1) j
  have b3 := nb_contrib_le_one size state i j (i - 1) (j + 1)
  have b4 := nb_contrib_le_one size state i j i (j - 1)
  have b5 := nb_contrib_le_one size state i j i (j + 1)
  have b6 := nb_contrib_le_one size state i j (i + 1) (j - 1)
  have b7 := nb_contrib_le_one size state i j (i + 1) j
  have b8 := nb_contrib_le_one size state i j (i + 1) (j + 1)
  omega

theorem get_nebour_count_corner (size : Int) (state : List (List Bool)) (i j : Int)
    (hsize : size ≤ 32767) (hi0 : 0 ≤ i) (hi1 : i < size)
    (hj0 : 0 ≤ j) (hj1 : j < size)
    (hci : i = 0 ∨ i = size - 1) (hcj : j = 0 ∨ j = size - 1) :
    get_nebour_count size state i j ≤ 3 := by
  rw [get_nebour_count_eq_sum size state i j (by omega) (by omega) (by omega)
    (by omega)]
  simp only [List.map_cons, List.map_nil, List.sum_cons, List.sum_nil]
  rw [nb_contrib_center]
  have b1 := nb_contrib_le_one size state i j (i - 1) (j - 1)
  have b2 := nb_contrib_le_one size state i j (i - 1) j
  have b3 := nb_contrib_le_one size state i j (i - 1) (j + 1)
  have b4 := nb_contrib_le_one size state i j i (j - 1)
  have b5 := nb_contrib_le_one size state i j i (j + 1)
  have b6 := nb_contrib_le_one size state i j (i + 1) (j - 1)
  have b7 := nb_contrib_le_one size state i j (i + 1) j
  have b8 := nb_contrib_le_one size state i j (i + 1) (j + 1)
  rcases hci with hci | hci <;> rcases hcj with hcj | hcj
  · have z1 := nb_contrib_out_row size state i j (i - 1) (j - 1) (by omega)
    have z2 := nb_contrib_out_row size state i j (i - 1) j (by omega)
    have z3 := nb_contrib_out_row size state i j (i - 1) (j + 1) (by omega)
    have z4 := nb_contrib_out_col size state i j i (j - 1) (by omega)
    have z5 := nb_contrib_out_col size state i j (i + 1) (j - 1) (by omega)
    omega
  · have z1 := nb_contrib_out_row size state i j (i - 1) (j - 1) (by omega)
    have z2 := nb_contrib_out_row size state i j (i - 1) j (by omega)
    have z3 := nb_contrib_out_row size state i j (i - 1) (j + 1) (by omega)
    have z4 := nb_contrib_out_col size state i j i (j + 1) (by omega)
    have z5 := nb_contrib_out_col size state i j (i + 1) (j + 1) (by omega)
    omega
  · have z1 := nb_contrib_out_row size state i j (i + 1) (j - 1) (by omega)
    have z2 := nb_contrib_out_row size state i j (i + 1) j (by omega)
    have z3 := nb_contrib_out_row size state i j (i + 1) (j + 1) (by omega)
    have z4 := nb_contrib_out_col size state i j (i - 1) (j - 1) (by omega)
    have z5 := nb_contrib_out_col size state i j i (j - 1) (by omega)
    omega
  · have z1 := nb_contrib_out_row size state i j (i + 1) (j - 1) (by omega)
    have z2 := nb_contrib_out_row size state i j (i + 1) j (by omega)
    have z3 := nb_contrib_out_row size state i j (i + 1) (j + 1) (by omega)
    have z4 := nb_contrib_out_col size state i j (i - 1) (j + 1) (by omega)
    have z5 := nb_contrib_out_col size state i j i (j + 1) (by omega)
    omega

theorem get_nebour_count_boundary (size : Int) (state : List (List Bool)) (i j : Int)
    (hsize : size ≤ 32767) (hi0 : 0 ≤ i) (hi1 : i < size)
    (hj0 : 0 ≤ j) (hj1 : j < size)
    (hb : i = 0 ∨ i = size - 1 ∨ j = 0 ∨ j = size - 1) :
    get_nebour_count size state i j ≤ 5 := by
  rw [get_nebour_count_eq_sum size state i j (by omega) (by omega) (by omega)
    (by omega)]
  simp only [List.map_cons, List.map_nil, List.sum_cons, List.sum_nil]
  rw [nb_contrib_center]
  have b1 := nb_contrib_le_one size state i j (i - 1) (j - 1)
  have b2 := nb_contrib_le_one size state i j (i - 1) j
  have b3 := nb_contrib_le_one size state i j (i - 1) (j + 1)
  have b4 := nb_contrib_le_one size state i j i (j - 1)
  have b5 := nb_contrib_le_one size state i j i (j + 1)
  have b6 := nb_contrib_le_one size state i j (i + 1) (j - 1)
  have b7 := nb_contrib_le_one size state i j (i + 1) j
  have b8 := nb_contrib_le_one size state i j (i + 1) (j + 1)
  rcases hb with hb | hb | hb | hb
  · have z1 := nb_contrib_out_row size state i j (i - 1) (j - 1) (by omega)
    have z2 := nb_contrib_out_row size state i j (i - 1) j (by omega)
    have z3 := nb_contrib_out_row size state i j (i - 1) (j + 1) (by omega)
    omega
  · have z1 := nb_contrib_out_row size state i j (i + 1) (j - 1) (by omega)
    have z2 := nb_contrib_out_row size state i j (i + 1) j (by omega)
    have z3 := nb_contrib_out_row size state i j (i + 1) (j + 1) (by omega)
    omega
  · have z1 := nb_contrib_out_col size state i j (i - 1) (j - 1) (by omega)
    have z2 := nb_contrib_out_col size state i j i (j - 1) (by omega)
    have z3 := nb_contrib_out_col size state i j (i + 1) (j - 1) (by omega)
    omega
  · have z1 := nb_contrib_out_col size state i j (i - 1) (j + 1) (by omega)
    have z2 := nb_contrib_out_col size state i j i (j + 1) (by omega)
    have z3 := nb_contrib_out_col size state i j (i + 1) (j + 1) (by omega)
    omega

theorem get_nebour_count_interior (size : Int) (state : List (List Bool)) (i j : Int)
    (hsize : size ≤ 32767) (hi0 : 0 < i) (hi1 : i < size - 1)
    (hj0 : 0 < j) (hj1 : j < size - 1) :
    get_nebour_count size state i j
      = ((neighborhood i j).filter (alive_at state)).length := by
  rw [get_nebour_count_eq_spec size state i j (by omega) (by omega) (by omega)
    (by omega)]
  unfold spec_nebour_count
  rw [← List.countP_eq_length_filter, ← List.countP_eq_length_filter]
  apply List.countP_congr
  intro p hp
  have hin : in_bounds size p = true := by
    simp only [neighborhood, List.mem_cons, List.not_mem_nil, or_false] at hp
    rcases hp with rfl | rfl | rfl | rfl | rfl | rfl | rfl | rfl <;>
      (simp [in_bounds]; omega)
  simp [hin]

/-- C4.  Edge-clamped neighbour counting: inside the grid the count equals
the number of alive cells among the in-bounds adjacent positions (no
wraparound, the cell itself skipped); it never exceeds 8, corners see at
most 3, boundary cells at most 5, and interior cells are counted over all 8
adjacent positions with no position dropped. -/
theorem c4_nebour_clamped (size : Int) (state : List (List Bool)) (i j : Int)
    (hsize : size ≤ 32767) (hi0 : 0 ≤ i) (hi1 : i < size)
    (hj0 : 0 ≤ j) (hj1 : j < size) :
    get_nebour_count size state i j = spec_nebour_count size state i j ∧
    get_nebour_count size state i j ≤ 8 ∧
    ((i = 0 ∨ i = size - 1) → (j = 0 ∨ j = size - 1) →
      get_nebour_count size state i j ≤ 3) ∧
    ((i = 0 ∨ i = size - 1 ∨ j = 0 ∨ j = size - 1) →
      get_nebour_count size state i j ≤ 5) ∧
    (0 < i → i < size - 1 → 0 < j → j < size - 1 →
      get_nebour_count size state i j
        = ((neighborhood i j).filter (alive_at state)).length) :=
  ⟨get_nebour_count_eq_spec size state i j (by omega) (by omega) (by omega)
      (by omega),
   get_nebour_count_le_eight size state i j (by omega) (by omega) (by omega)
      (by omega),
   fun hci hcj =>
     get_nebour_count_corner size state i j hsize hi0 hi1 hj0 hj1 hci hcj,
   fun hb => get_nebour_count_boundary size state i j hsize hi0 hi1 hj0 hj1 hb,
   fun a b c d => get_nebour_count_interior size state i j hsize a b c d⟩

theorem c4_nebour_clamped_witness :
    ((3 : Int) ≤ 32767 ∧ (0 : Int) ≤ 0 ∧ (0 : Int) < 3 ∧
      (0 : Int) ≤ 0 ∧ (0 : Int) < 3) ∧
    (get_nebour_count 3 game_three.state 0 0
        = spec_nebour_count 3 game_three.state 0 0 ∧
      get_nebour_count 3 game_three.state 0 0 ≤ 8 ∧
      (((0 : Int) = 0 ∨ (0 : Int) = 3 - 1) → ((0 : Int) = 0 ∨ (0 : Int) = 3 - 1) →
        get_nebour_count 3 game_three.state 0 0 ≤ 3) ∧
      (((0 : Int) = 0 ∨ (0 : Int) = 3 - 1 ∨ (0 : Int) = 0 ∨ (0 : Int) = 3 - 1) →
        get_nebour_count 3 game_three.state 0 0 ≤ 5) ∧
      ((0 : Int) < 0 → (0 : Int) < 3 - 1 → (0 : Int) < 0 → (0 : Int) < 3 - 1 →
        get_nebour_count 3 game_three.state 0 0
          = ((neighborhood 0 0).filter (alive_at game_three.state)).length)) :=
  ⟨⟨by omega, by omega, by omega, by omega, by omega⟩,
   c4_nebour_clamped 3 game_three.state 0 0 (by omega) (by omega) (by omega)
     (by omega) (by omega)⟩

/-! ### Checked matrix accesses -/

theorem foldl_keep {α β : Type} : ∀ (l : List α) (b : β),
    l.foldl (fun acc _ => acc) b = b := by
  intro l
  induction l with
  | nil => intro b; rfl
  | cons x xs ih => intro b; rw [List.foldl_cons]; exact ih b

theorem read_ok (size : Int) (state : List (List Bool))
    (hlen : state.length = size.toNat)
    (hcols : ∀ col ∈ state, col.length = size.toNat) :
    ∀ ni nj : Int, ¬(ni < 0 ∨ size ≤ ni) → ¬(nj < 0 ∨ size ≤ nj) →
      state[nj.toNat]?.bind (fun col => col[ni.toNat]?)
        = some ((state.getD nj.toNat []).getD ni.toNat false) := by
  intro ni nj hni hnj
  have hjN : nj.toNat < state.length := by rw [hlen]; omega
  have hcol : state[nj.toNat]? = some state[nj.toNat] :=
    List.getElem?_eq_getElem hjN
  have hclen : state[nj.toNat].length = size.toNat := hcols _ (List.getElem_mem hjN)
  have hiN : ni.toNat < state[nj.toNat].length := by rw [hclen]; omega
  rw [hcol, Option.some_bind, List.getElem?_eq_getElem hiN]
  congr 1
  rw [List.getD_eq_getElem?_getD state nj.toNat, List.getElem?_eq_getElem hjN,
    Option.getD_some, List.getD_eq_getElem?_getD, List.getElem?_eq_getElem hiN,
    Option.getD_some]

theorem checked_inner_eq (size : Int) (state : List (List Bool)) (i j ni : Int)
    (hread : ∀ nj : Int, ¬(ni < 0 ∨ size ≤ ni) → ¬(nj < 0 ∨ size ≤ nj) →
      state[nj.toNat]?.bind (fun col => col[ni.toNat]?)
        = some ((state.getD nj.toNat []).getD ni.toNat false)) :
    ∀ (l : List Int) (count : Nat),
      l.foldl (fun acc nj =>
        if ni < 0 ∨ size ≤ ni then acc
        else if nj < 0 ∨ size ≤ nj then acc
        else if ni = i ∧ nj = j then acc
        else match acc, state[nj.toNat]?.bind (fun col => col[ni.toNat]?) with
          | some count, some b => some (if b then count + 1 else count)
          | _, _ => none) (some count)
      = some (l.foldl (fun count nj =>
          if ni < 0 ∨ size ≤ ni then count
          else if nj < 0 ∨ size ≤ nj then count
          else if ni = i ∧ nj = j then count
          else if (state.getD nj.toNat []).getD ni.toNat false then count + 1
          else count) count) := by
  intro l
  induction l with
  | nil => intro count; rfl
  | cons x xs ih =>
    intro count
    rw [List.foldl_cons, List.foldl_cons]
    by_cases hni : ni < 0 ∨ size ≤ ni
    · rw [if_pos hni, if_pos hni]; exact ih count
    · rw [if_neg hni, if_neg hni]
      by_cases hx : x < 0 ∨ size ≤ x
      · rw [if_pos hx, if_pos hx]; exact ih count
      · rw [if_neg hx, if_neg hx]
        by_cases hc : ni = i ∧ x = j
        · rw [if_pos hc, if_pos hc]; exact ih count
        · rw [if_neg hc, if_neg hc, hread x hni hx]
          exact ih _

theorem checked_outer_eq (size : Int) (state : List (List Bool)) (i j : Int)
    (hread : ∀ ni nj : Int, ¬(ni < 0 ∨ size ≤ ni) → ¬(nj < 0 ∨ size ≤ nj) →
      state[nj.toNat]?.bind (fun col => col[ni.toNat]?)
        = some ((state.getD nj.toNat []).getD ni.toNat false))
    (lj : List Int) :
    ∀ (li : List Int) (count : Nat),
      li.foldl (fun acc ni =>
        lj.foldl (fun acc nj =>
          if ni < 0 ∨ size ≤ ni then acc
          else if nj < 0 ∨ size ≤ nj then acc
          else if ni = i ∧ nj = j then acc
          else match acc, state[nj.toNat]?.bind (fun col => col[ni.toNat]?) with
            | some count, some b => some (if b then count + 1 else count)
            | _, _ => none) acc) (some count)
      = some (li.foldl (fun count ni =>
          lj.foldl (fun count nj =>
            if ni < 0 ∨ size ≤ ni then count
            else if nj < 0 ∨ size ≤ nj then count
            else if ni = i ∧ nj = j then count
            else if (state.getD nj.toNat []).getD ni.toNat false then count + 1
            else count) count) count) := by
  intro li
  induction li with
  | nil => intro count; rfl
  | cons x xs ih =>
    intro count
    rw [List.foldl_cons, List.foldl_cons]
    rw [checked_inner_eq size state i j x (fun nj h1 h2 => hread x nj h1 h2) lj count]
    exact ih _

theorem checked_eq (size : Int) (state : List (List Bool)) (i j : Int)
    (hread : ∀ ni nj : Int, ¬(ni < 0 ∨ size ≤ ni) → ¬(nj < 0 ∨ size ≤ nj) →
      state[nj.toNat]?.bind (fun col => col[ni.toNat]?)
        = some ((state.getD nj.toNat []).getD ni.toNat false)) :
    get_nebour_count_checked size state i j
      = some (get_nebour_count size state i j) := by
  unfold get_nebour_count_checked get_nebour_count
  exact checked_outer_eq size state i j hread
    (rangeIncl (wrap16 (j - 1)) (wrap16 (j + 1)))
    (rangeIncl (wrap16 (i - 1)) (wrap16 (i + 1))) 0

/-- C9.  Total safety of neighbour counting: for any `i16` coordinates, even
far outside the grid, every matrix access of `get_nebour_count` on a
`size × size` state is in bounds (the checked evaluation returns `some`, it
never hits the panic case) and the count is at most 8. -/
theorem c9_nebour_safe (size : Int) (state : List (List Bool)) (i j : Int)
    (hlen : state.length = size.toNat)
    (hcols : ∀ col ∈ state, col.length = size.toNat)
    (hi1 : -32768 ≤ i) (hi2 : i ≤ 32767) (hj1 : -32768 ≤ j) (hj2 : j ≤ 32767) :
    get_nebour_count_checked size state i j
      = some (get_nebour_count size state i j) ∧
    get_nebour_count size state i j ≤ 8 := by
  refine ⟨checked_eq size state i j (read_ok size state hlen hcols), ?_⟩
  by_cases hi : i = -32768 ∨ i = 32767
  · have hr : rangeIncl (wrap16 (i - 1)) (wrap16 (i + 1)) = [] := by
      rcases hi with rfl | rfl <;> decide
    unfold get_nebour_count
    rw [hr, List.foldl_nil]
    omega
  · by_cases hj : j = -32768 ∨ j = 32767
    · have hr : rangeIncl (wrap16 (j - 1)) (wrap16 (j + 1)) = [] := by
        rcases hj with rfl | rfl <;> decide
      unfold get_nebour_count
      simp only [hr, List.foldl_nil]
      rw [foldl_keep]
      omega
    · exact get_nebour_count_le_eight size state i j (by omega) (by omega)
        (by omega) (by omega)

theorem c9_nebour_safe_witness :
    (game_three.state.length = (3 : Int).toNat ∧
      (∀ col ∈ game_three.state, col.length = (3 : Int).toNat) ∧
      -32768 ≤ (200 : Int) ∧ (200 : Int) ≤ 32767 ∧
      -32768 ≤ (-7 : Int) ∧ (-7 : Int) ≤ 32767) ∧
    (get_nebour_count_checked 3 game_three.state 200 (-7)
        = some (get_nebour_count 3 game_three.state 200 (-7)) ∧
      get_nebour_count 3 game_three.state 200 (-7) ≤ 8) :=
  ⟨⟨by decide, by decide, by decide, by decide, by decide, by decide⟩,
   c9_nebour_safe 3 game_three.state 200 (-7) (by decide) (by decide)
     (by decide) (by decide) (by decide) (by decide)⟩
